import Mathlib

/-!
Verification of the web-forensic session recorder / suspicious-activity
scorer / replay engine against its natural-language specification.

The JavaScript sources are shallowly embedded as executable Lean
definitions: pure string manipulation becomes Lean string functions,
stateful classes become explicit state records with step functions, and
the single-threaded timer-driven control flow of the replay loop becomes
a terminating recursion over the stored event list.
-/

/-! ## String containment

Models JavaScript `String.prototype.includes` on the character list of a
string: `startsWithList sub l` checks that `sub` is a pointwise prefix
of `l`, and `containsList sub l` that `sub` occurs contiguously in `l`.
-/

def startsWithList : List Char → List Char → Bool
  | [], _ => true
  | _ :: _, [] => false
  | a :: as, b :: bs => a == b && startsWithList as bs

def containsList (sub : List Char) : List Char → Bool
  | [] => sub.isEmpty
  | c :: rest => startsWithList sub (c :: rest) || containsList sub rest

/-- JS `s.includes(sub)`. -/
def strContains (s sub : String) : Bool :=
  containsList sub.toList s.toList

theorem startsWithList_mem {sub l : List Char} (h : startsWithList sub l = true) :
    ∀ c ∈ sub, c ∈ l := by
  induction sub generalizing l with
  | nil => intro c hc; cases hc
  | cons a as ih =>
    cases l with
    | nil => simp [startsWithList] at h
    | cons b bs =>
      simp only [startsWithList, Bool.and_eq_true, beq_iff_eq] at h
      intro c hc
      rcases List.mem_cons.mp hc with rfl | hc
      · exact h.1 ▸ List.mem_cons_self _ _
      · exact List.mem_cons_of_mem _ (ih h.2 c hc)

theorem containsList_mem {sub l : List Char} (h : containsList sub l = true) :
    ∀ c ∈ sub, c ∈ l := by
  induction l with
  | nil =>
    simp only [containsList, List.isEmpty_iff] at h
    subst h; intro c hc; cases hc
  | cons b bs ih =>
    simp only [containsList, Bool.or_eq_true] at h
    rcases h with h | h
    · exact startsWithList_mem h
    · intro c hc; exact List.mem_cons_of_mem _ (ih h c hc)

/-! ## Masker

`SessionRecorder.maskSensitiveData` (src/record.js lines 43-55) and the
field helpers of `NetworkTracker` (src/core/network.js lines 70-86).
A field is sensitive when its name case-insensitively contains one of the
configured patterns; a sensitive value is replaced by a run of `*`
capped at 8 characters.
-/

/-- JS `String.prototype.toLowerCase` on basic latin letters, written as a
structurally recursive character map (`Char.toLower` is exactly the
latin-letter case fold). -/
def jsToLower (s : String) : String :=
  String.mk (s.toList.map Char.toLower)

/-- NetworkTracker.isSensitiveField; the same test appears inline in
SessionRecorder.maskSensitiveData (record.js lines 46-48). -/
def isSensitiveField (maskPatterns : List String) (fieldName : String) : Bool :=
  maskPatterns.any (fun pattern => strContains (jsToLower fieldName) (jsToLower pattern))

/-- SessionRecorder.maskSensitiveData (record.js lines 43-55).
`maskEnabled` is the `options.maskSensitiveData` flag; the falsy check
`!value` on a string value is the empty-string test. -/
def maskSensitiveData (maskEnabled : Bool) (maskPatterns : List String)
    (value : String) (fieldName : String) : String :=
  if maskEnabled = false ∨ value = "" then value
  else if isSensitiveField maskPatterns fieldName then
    String.mk (List.replicate (min value.length 8) '*')
  else value

/-- NetworkTracker.maskValue (network.js lines 70-73). -/
def maskValue (value : String) : String :=
  if value = "" then value
  else String.mk (List.replicate (min value.length 8) '*')

theorem length_mk_list (l : List Char) : (String.mk l).length = l.length := rfl

theorem toList_mk_list (l : List Char) : (String.mk l).toList = l := rfl

/-- A string with a character other than the marker cannot occur inside a
run of markers. -/
theorem not_contains_of_marker {k : Nat} {v : String}
    (hv : ∃ c ∈ v.toList, c ≠ '*') :
    strContains (String.mk (List.replicate k '*')) v = false := by
  rcases hv with ⟨c, hc, hne⟩
  by_contra h
  rw [Bool.not_eq_false] at h
  have hmem := containsList_mem h c hc
  rw [toList_mk_list] at hmem
  exact hne (List.eq_of_mem_replicate hmem)

/-- C1 (counterexample): the claim says the stored masked value never
contains the original literal value, but masking the one-character value
consisting of the marker character itself returns that very character,
so the stored payload does contain the original. -/
theorem C1_counterexample :
    maskSensitiveData true ["password"] "*" "password" = "*" ∧
    strContains (maskSensitiveData true ["password"] "*" "password") "*" = true := by
  constructor
  · decide
  · decide

/-- C1 (amended): for every field name matching a configured sensitive
pattern and every non-empty value, the recorder's mask is a run of the
marker character of length at most 8, and — provided the original value
contains at least one non-marker character — the stored value does not
contain the original literal; NetworkTracker.maskValue produces the same
capped marker. -/
theorem C1_mask_marker (maskPatterns : List String) (fieldName value : String)
    (hmask : isSensitiveField maskPatterns fieldName = true) (hne : value ≠ "") :
    (maskSensitiveData true maskPatterns value fieldName).length ≤ 8 ∧
    (∀ c ∈ (maskSensitiveData true maskPatterns value fieldName).toList, c = '*') ∧
    ((∃ c ∈ value.toList, c ≠ '*') →
      strContains (maskSensitiveData true maskPatterns value fieldName) value = false) ∧
    (maskValue value).length ≤ 8 ∧
    (∀ c ∈ (maskValue value).toList, c = '*') := by
  have hmv : maskValue value = String.mk (List.replicate (min value.length 8) '*') := by
    simp [maskValue, hne]
  have hmd : maskSensitiveData true maskPatterns value fieldName
      = String.mk (List.replicate (min value.length 8) '*') := by
    simp [maskSensitiveData, hne, hmask]
  refine ⟨?_, ?_, ?_, ?_, ?_⟩
  · rw [hmd, length_mk_list, List.length_replicate]
    exact min_le_right _ _
  · rw [hmd, toList_mk_list]
    intro c hc
    exact List.eq_of_mem_replicate hc
  · intro hv
    rw [hmd]
    exact not_contains_of_marker hv
  · rw [hmv, length_mk_list, List.length_replicate]
    exact min_le_right _ _
  · rw [hmv, toList_mk_list]
    intro c hc
    exact List.eq_of_mem_replicate hc

theorem C1_mask_marker_witness :
    (maskSensitiveData true ["password"] "secret123" "password").length ≤ 8 ∧
    strContains (maskSensitiveData true ["password"] "secret123" "password") "secret123"
      = false := by
  have h := C1_mask_marker ["password"] "password" "secret123" (by decide) (by decide)
  exact ⟨h.1, h.2.2.1 (by decide)⟩

/-- C9: masking is idempotent — re-masking an already-masked value
returns it unchanged, for every field name (sensitive or not), every
pattern set, and both settings of the masking option. -/
theorem C9_mask_idempotent (maskEnabled : Bool) (maskPatterns : List String)
    (fieldName value : String) :
    maskSensitiveData maskEnabled maskPatterns
        (maskSensitiveData maskEnabled maskPatterns value fieldName) fieldName
      = maskSensitiveData maskEnabled maskPatterns value fieldName := by
  by_cases hen : maskEnabled = false
  · simp [maskSensitiveData, hen]
  · by_cases hne : value = ""
    · simp [maskSensitiveData, hne]
    · by_cases hsens : isSensitiveField maskPatterns fieldName = true
      · have hvl : value.length ≠ 0 := by
          cases value with
          | mk l =>
            cases l with
            | nil => exact absurd rfl hne
            | cons c cs => simp [String.length]
        have hk : min value.length 8 ≠ 0 := by omega
        have hmd : maskSensitiveData maskEnabled maskPatterns value fieldName
            = String.mk (List.replicate (min value.length 8) '*') := by
          simp [maskSensitiveData, hen, hne, hsens]
        have hne2 : String.mk (List.replicate (min value.length 8) '*') ≠ "" := by
          intro h
          have h2 : List.replicate (min value.length 8) '*' = ([] : List Char) :=
            congrArg String.data h
          have h3 := List.length_replicate (min value.length 8) '*'
          rw [h2] at h3
          simp only [List.length_nil] at h3
          omega
        have hlen : (String.mk (List.replicate (min value.length 8) '*')).length
            = min value.length 8 := by
          rw [length_mk_list, List.length_replicate]
        rw [hmd]
        by_cases hguard : maskEnabled = false ∨
            String.mk (List.replicate (min value.length 8) '*') = ""
        · simp only [maskSensitiveData, hguard, if_true]
        · simp only [maskSensitiveData, hguard, if_false, hsens, if_true]
          rw [hlen]
          congr 2
          omega
      · simp [maskSensitiveData, hsens]

/-! ## SuspiciousTracker

Embedding of `SuspiciousTracker` (src/core/suspicious.js). A record is
an appended event decorated with a timestamp and a computed severity;
`sensitive-network` records additionally carry `triggeredByClick`, which
in the source is the JS expression
`this.lastClick && (Date.now() - this.lastClick.timestamp < 1000)` and
therefore evaluates to `null` (modelled `none`) when no click was ever
seen, else to a boolean.
-/

/-- SuspiciousTracker.calculateSeverity (suspicious.js lines 40-71). -/
def calculateSeverity (eventType : String) : ℚ :=
  match eventType with
  | "value-access" => 0.6
  | "encoding-attempt" => 0.8
  | "external-script" => 0.9
  | "domain-mismatch" => 1.0
  | "hidden-click" => 0.7
  | "iframe-click" => 0.8
  | "element-disabling" => 0.6
  | "sensitive-network" => 0.9
  | _ => 0

structure SuspRecord where
  eventType : String
  timestamp : Nat
  severity : ℚ
  triggeredByClick : Option Bool
deriving DecidableEq

structure SuspiciousTracker where
  threshold : ℚ
  records : List SuspRecord
  accessedValues : List String
  lastClick : Option Nat
deriving DecidableEq

/-- The constructor's options object (suspicious.js lines 5-10) writes
`suspiciousThreshold: options.suspiciousThreshold || 0.8` and then ends
with the spread `...options`, which overwrites the earlier entry with
the caller's value whenever the key is present; so the `|| 0.8` default
only takes effect when no threshold is configured at all, and a
configured threshold — including 0 — is kept as given. -/
def effectiveThreshold (configured : Option ℚ) : ℚ :=
  match configured with
  | some t => t
  | none => 0.8

/-- SuspiciousTracker constructor (suspicious.js lines 4-15). -/
def mkTracker (configured : Option ℚ) : SuspiciousTracker :=
  { threshold := effectiveThreshold configured
    records := []
    accessedValues := []
    lastClick := none }

/-- SuspiciousTracker.record (suspicious.js lines 18-37): appends the
event decorated with a timestamp and its computed severity. -/
def recordSusp (tr : SuspiciousTracker) (eventType : String)
    (triggered : Option Bool) (now : Nat) : SuspiciousTracker :=
  { tr with records := tr.records ++
      [{ eventType := eventType
         timestamp := now
         severity := calculateSeverity eventType
         triggeredByClick := triggered }] }

/-- SuspiciousTracker.getSuspiciousRecords (suspicious.js lines 321-325). -/
def getSuspiciousRecords (tr : SuspiciousTracker) : List SuspRecord :=
  tr.records.filter (fun record => tr.threshold ≤ record.severity)

/-- The click handler installed by trackHiddenClicks (suspicious.js lines
194-227): every click stores the current time in `lastClick`; a click on
a hidden element or inside an iframe additionally appends a record. -/
def handleClick (tr : SuspiciousTracker) (now : Nat)
    (hidden insideIframe : Bool) : SuspiciousTracker :=
  let tr1 := { tr with lastClick := some now }
  let tr2 := if hidden then recordSusp tr1 "hidden-click" none now else tr1
  if insideIframe then recordSusp tr2 "iframe-click" none now else tr2

/-- The fetch wrapper installed by trackSensitiveNetwork (suspicious.js
lines 257-281): a POST with a non-empty body containing a previously
accessed value is recorded as `sensitive-network`, with
`triggeredByClick` computed from the retained `lastClick` timestamp. -/
def interceptFetchSusp (tr : SuspiciousTracker) (now : Nat)
    (method : String) (body : Option String) : SuspiciousTracker :=
  match body with
  | none => tr
  | some b =>
    if method = "POST" ∧ b ≠ "" then
      if tr.accessedValues.any (fun value => strContains b value) then
        recordSusp tr "sensitive-network"
          (match tr.lastClick with
           | none => none
           | some t => some (decide (now - t < 1000)))
          now
      else tr
    else tr

theorem recordSusp_threshold (tr : SuspiciousTracker) (eventType : String)
    (triggered : Option Bool) (now : Nat) :
    (recordSusp tr eventType triggered now).threshold = tr.threshold := rfl

theorem foldl_recordSusp_threshold (events : List (String × Nat)) :
    ∀ tr : SuspiciousTracker,
      (events.foldl (fun acc e => recordSusp acc e.1 none e.2) tr).threshold
        = tr.threshold := by
  induction events with
  | nil => intro tr; rfl
  | cons e rest ih => intro tr; rw [List.foldl_cons, ih]; rfl

/-- C3: for every recorded event and any configured threshold in [0,1],
the event is classified suspicious exactly when its severity is at least
the threshold (the trailing `...options` spread keeps the configured
value, so the tracker's threshold is the configured one), and
getSuspiciousRecords returns exactly the records whose severity reaches
the threshold, preserving original recording order. -/
theorem C3_threshold (t : ℚ) (events : List (String × Nat))
    (_h0 : 0 ≤ t) (_h1 : t ≤ 1) :
    (events.foldl (fun acc e => recordSusp acc e.1 none e.2)
        (mkTracker (some t))).threshold = t ∧
    (∀ r, r ∈ getSuspiciousRecords
          (events.foldl (fun acc e => recordSusp acc e.1 none e.2) (mkTracker (some t)))
        ↔ r ∈ (events.foldl (fun acc e => recordSusp acc e.1 none e.2)
            (mkTracker (some t))).records ∧ t ≤ r.severity) ∧
    (getSuspiciousRecords
        (events.foldl (fun acc e => recordSusp acc e.1 none e.2) (mkTracker (some t)))).Sublist
      (events.foldl (fun acc e => recordSusp acc e.1 none e.2) (mkTracker (some t))).records := by
  have hth : (events.foldl (fun acc e => recordSusp acc e.1 none e.2)
      (mkTracker (some t))).threshold = t := by
    rw [foldl_recordSusp_threshold]
    rfl
  refine ⟨hth, ?_, ?_⟩
  · intro r
    rw [getSuspiciousRecords, List.mem_filter, hth]
    simp
  · exact List.filter_sublist _

theorem C3_threshold_witness :
    (recordSusp (mkTracker (some 0)) "value-access" none 5).threshold = 0 ∧
    (∀ r, r ∈ getSuspiciousRecords
          (recordSusp (mkTracker (some 0)) "value-access" none 5)
        ↔ r ∈ (recordSusp (mkTracker (some 0)) "value-access" none 5).records ∧
            (0 : ℚ) ≤ r.severity) := by
  have h := C3_threshold 0 [("value-access", 5)] (by norm_num) (by norm_num)
  exact ⟨by simpa using h.1, by simpa using h.2.1⟩

theorem handleClick_lastClick (tr : SuspiciousTracker) (now : Nat)
    (hidden insideIframe : Bool) :
    (handleClick tr now hidden insideIframe).lastClick = some now := by
  simp only [handleClick, recordSusp]
  cases hidden <;> cases insideIframe <;> rfl

theorem handleClick_accessedValues (tr : SuspiciousTracker) (now : Nat)
    (hidden insideIframe : Bool) :
    (handleClick tr now hidden insideIframe).accessedValues = tr.accessedValues := by
  simp only [handleClick, recordSusp]
  cases hidden <;> cases insideIframe <;> rfl

theorem foldl_handleClick_lastClick (clicks : List (Nat × Bool × Bool)) :
    ∀ tr : SuspiciousTracker,
      (clicks.foldl (fun acc c => handleClick acc c.1 c.2.1 c.2.2) tr).lastClick
        = match (clicks.map Prod.fst).getLast? with
          | some t => some t
          | none => tr.lastClick := by
  induction clicks with
  | nil => intro tr; rfl
  | cons c rest ih =>
    intro tr
    rw [List.foldl_cons, ih]
    cases rest with
    | nil => simp [handleClick_lastClick]
    | cons c2 rest2 =>
      simp only [List.map_cons, List.getLast?_cons_cons]
      cases hh : ((c2.1 :: rest2.map Prod.fst).getLast?) with
      | none =>
        rw [List.getLast?_eq_none_iff] at hh
        exact absurd hh (List.cons_ne_nil _ _)
      | some t => rfl

theorem foldl_handleClick_accessedValues (clicks : List (Nat × Bool × Bool)) :
    ∀ tr : SuspiciousTracker,
      (clicks.foldl (fun acc c => handleClick acc c.1 c.2.1 c.2.2) tr).accessedValues
        = tr.accessedValues := by
  induction clicks with
  | nil => intro tr; rfl
  | cons c rest ih =>
    intro tr
    rw [List.foldl_cons, ih, handleClick_accessedValues]

/-- C4: a `sensitive-network` record carries `triggeredByClick = true`
exactly when a click happened and its retained timestamp lies within the
1000 ms window before the interception time: processing any sequence of
clicks and then a POST whose non-empty body contains a previously
accessed value appends a `sensitive-network` record whose
`triggeredByClick` is `some true` iff the most recent click time `tc`
satisfies `now - tc < 1000` (and is `none`, JS `null`, when no click was
ever observed). -/
theorem C4_triggered_by_click (configured : Option ℚ) (accessed : List String)
    (clicks : List (Nat × Bool × Bool)) (now : Nat) (body : String)
    (hsens : accessed.any (fun value => strContains body value) = true)
    (hbody : body ≠ "") :
    ∃ r, (interceptFetchSusp
          (clicks.foldl (fun acc c => handleClick acc c.1 c.2.1 c.2.2)
            { mkTracker configured with accessedValues := accessed })
          now "POST" (some body)).records.getLast? = some r ∧
      r.eventType = "sensitive-network" ∧
      (r.triggeredByClick = some true
        ↔ ∃ tc, (clicks.map Prod.fst).getLast? = some tc ∧ now - tc < 1000) ∧
      (r.triggeredByClick = none ↔ (clicks.map Prod.fst).getLast? = none) := by
  have hacc := foldl_handleClick_accessedValues clicks
    { mkTracker configured with accessedValues := accessed }
  have hlc := foldl_handleClick_lastClick clicks
    { mkTracker configured with accessedValues := accessed }
  set tr := clicks.foldl (fun acc c => handleClick acc c.1 c.2.1 c.2.2)
    { mkTracker configured with accessedValues := accessed } with htr
  have hacc2 : tr.accessedValues = accessed := hacc
  have hfetch : interceptFetchSusp tr now "POST" (some body)
      = recordSusp tr "sensitive-network"
          (match tr.lastClick with
           | none => none
           | some t => some (decide (now - t < 1000)))
          now := by
    rw [interceptFetchSusp]
    rw [if_pos ⟨rfl, hbody⟩, hacc2, if_pos hsens]
  refine ⟨{ eventType := "sensitive-network", timestamp := now,
            severity := calculateSeverity "sensitive-network",
            triggeredByClick := match tr.lastClick with
              | none => none
              | some t => some (decide (now - t < 1000)) }, ?_, rfl, ?_, ?_⟩
  · rw [hfetch, recordSusp]
    exact List.getLast?_concat _
  · rw [hlc]
    cases hgl : (clicks.map Prod.fst).getLast? with
    | none => simp [mkTracker]
    | some tc => simp
  · rw [hlc]
    cases hgl : (clicks.map Prod.fst).getLast? with
    | none => simp [mkTracker]
    | some tc => simp

theorem C4_triggered_by_click_witness :
    ∃ r, (interceptFetchSusp
          ([((100 : Nat), false, false)].foldl
            (fun acc c => handleClick acc c.1 c.2.1 c.2.2)
            { mkTracker none with accessedValues := ["secret"] })
          500 "POST" (some "x=secret")).records.getLast? = some r ∧
      r.eventType = "sensitive-network" ∧
      (r.triggeredByClick = some true
        ↔ ∃ tc, ([((100 : Nat), false, false)].map Prod.fst).getLast? = some tc ∧
            500 - tc < 1000) ∧
      (r.triggeredByClick = none
        ↔ ([((100 : Nat), false, false)].map Prod.fst).getLast? = none) :=
  C4_triggered_by_click none ["secret"] [(100, false, false)] 500 "x=secret"
    (by decide) (by decide)

/-! ## ReplayEngine

Embedding of `SessionReplayer` (src/replay.js). Events loaded from a
session JSON carry a `timestamp` (the recorder's relative timestamp);
array entries may be null, which replayNext skips. The single-threaded
timer chain of `replayNext` — dispatch the event at `currentIndex`,
increment, and either schedule the next step after
`max(0, (next.timestamp - event.timestamp) / replaySpeed)` or call
`onReplayComplete` — is modelled as a recursion over the list suffix
starting at `currentIndex`, collecting the dispatched events and the
scheduled delays. The recursion assumes the run is not stopped or
paused from outside, which is the source's own single-threaded timer
behavior. -/

structure ReplayEvent where
  eventType : String
  timestamp : Nat
deriving DecidableEq

/-- The delay computed by replayNext (replay.js line 219):
`Math.max(0, (nextEvent.timestamp - event.timestamp) / this.replaySpeed)`. -/
def replayDelay (cur next : ReplayEvent) (speed : ℚ) : ℚ :=
  max 0 (((next.timestamp : ℚ) - (cur.timestamp : ℚ)) / speed)

structure RunResult where
  dispatched : List ReplayEvent
  delays : List ℚ
  finalIndex : Nat
deriving DecidableEq

/-- SessionReplayer.replayNext (replay.js lines 187-228), run to
completion. The first argument list is `this.events.drop i` for the
current index `i`; the head is `events[currentIndex]`, the second entry
is `nextEvent`. A falsy `event.timestamp` (that is, 0) or a falsy
`nextEvent` (out of range, or a null array entry) takes the
`onReplayComplete` branch even when further events exist. -/
def replayRun (speed : ℚ) : Nat → List (Option ReplayEvent) → RunResult
  | i, [] => { dispatched := [], delays := [], finalIndex := i }
  | i, none :: rest => replayRun speed (i + 1) rest
  | i, some ev :: rest =>
    match rest with
    | some next :: _ =>
      if ev.timestamp ≠ 0 then
        let r := replayRun speed (i + 1) rest
        { dispatched := ev :: r.dispatched
          delays := replayDelay ev next speed :: r.delays
          finalIndex := r.finalIndex }
      else { dispatched := [ev], delays := [], finalIndex := i + 1 }
    | none :: _ => { dispatched := [ev], delays := [], finalIndex := i + 1 }
    | [] => { dispatched := [ev], delays := [], finalIndex := i + 1 }

/-- The session wire format accepted by loadSession; `events := none`
models a payload whose `events` member is missing or not an array. -/
structure SessionData where
  sessionId : String
  startTime : Nat
  endTime : Option Nat
  events : Option (List (Option ReplayEvent))
deriving DecidableEq

structure ReplayState where
  sessionData : Option SessionData
  events : List (Option ReplayEvent)
  isReplaying : Bool
  isPaused : Bool
  currentIndex : Nat
  replaySpeed : ℚ
deriving DecidableEq

/-- A fresh SessionReplayer (replay.js constructor, lines 3-25). -/
def replayerInit (speed : ℚ) : ReplayState :=
  { sessionData := none
    events := []
    isReplaying := false
    isPaused := false
    currentIndex := 0
    replaySpeed := speed }

/-- Input to loadSession: null, a string (whose `JSON.parse` outcome is
carried as an `Option`, `none` modelling a parse exception), or an
already-parsed object. -/
inductive LoadInput where
  | nullInput : LoadInput
  | strInput : Option SessionData → LoadInput
  | objInput : SessionData → LoadInput
deriving DecidableEq

def loadParsed (st : ReplayState) (d : SessionData) : Bool × ReplayState :=
  match d.events with
  | none => (false, st)
  | some evs =>
    (true, { st with sessionData := some d, events := evs, currentIndex := 0 })

/-- SessionReplayer.loadSession (replay.js lines 66-98). -/
def loadSession (st : ReplayState) (input : LoadInput) : Bool × ReplayState :=
  match input with
  | .nullInput => (false, st)
  | .strInput none => (false, st)
  | .strInput (some d) => loadParsed st d
  | .objInput d => loadParsed st d

/-- SessionReplayer.startReplay (replay.js lines 123-150): refuses while
already replaying or with no events; otherwise optionally updates the
speed, resets `currentIndex` to 0, and runs the replayNext chain. The
returned state reflects the settled engine after `onReplayComplete`
(which clears `isReplaying`). -/
def startReplay (st : ReplayState) (speed : Option ℚ) : ReplayState × Option RunResult :=
  if st.isReplaying then (st, none)
  else if st.events.length = 0 then (st, none)
  else
    let sp := speed.getD st.replaySpeed
    let run := replayRun sp 0 st.events
    ({ st with replaySpeed := sp, isReplaying := false, isPaused := false,
               currentIndex := run.finalIndex }, some run)

/-- SessionReplayer.stopReplay (replay.js lines 153-163). -/
def stopReplay (st : ReplayState) : ReplayState :=
  { st with isReplaying := false, isPaused := false, currentIndex := 0 }

/-- SessionReplayer.jumpToEvent (replay.js lines 701-707): an in-range
index is stored; anything else is silently ignored. -/
def jumpToEvent (st : ReplayState) (index : ℤ) : ReplayState :=
  if 0 ≤ index ∧ index < (st.events.length : ℤ) then
    { st with currentIndex := index.toNat }
  else st

/-- SessionReplayer.jumpToProgress (replay.js lines 710-713):
`Math.floor((percentage / 100) * this.events.length)`. -/
def jumpToProgress (st : ReplayState) (percentage : ℚ) : ReplayState :=
  jumpToEvent st ⌊percentage / 100 * (st.events.length : ℚ)⌋

/-- The inter-event pacing the spec describes: one delay per adjacent
pair of stored events. -/
def pacingDelays (speed : ℚ) (evs : List ReplayEvent) : List ℚ :=
  List.zipWith (fun a b => replayDelay a b speed) evs evs.tail

theorem replayRun_all_some (speed : ℚ) :
    ∀ (evs : List ReplayEvent),
      (∀ e ∈ evs.dropLast, e.timestamp ≠ 0) →
      ∀ i : Nat, replayRun speed i (evs.map some)
        = { dispatched := evs, delays := pacingDelays speed evs,
            finalIndex := i + evs.length } := by
  intro evs
  induction evs with
  | nil => intro _ i; rfl
  | cons e rest ih =>
    intro hts i
    cases rest with
    | nil => rfl
    | cons e2 rest2 =>
      have hts0 : e.timestamp ≠ 0 := by
        apply hts
        rw [List.dropLast_cons₂]
        exact List.mem_cons_self _ _
      have htsr : ∀ x ∈ (e2 :: rest2).dropLast, x.timestamp ≠ 0 := by
        intro x hx
        apply hts
        rw [List.dropLast_cons₂]
        exact List.mem_cons_of_mem _ hx
      have hrec := ih htsr (i + 1)
      simp only [List.map_cons] at hrec ⊢
      rw [replayRun, if_pos hts0, hrec]
      simp only [pacingDelays, List.tail_cons, List.zipWith_cons_cons, List.length_cons]
      congr 1
      omega

/-- C2 (counterexample): the first event of this two-event session has
`timestamp = 0`, which is falsy, so after dispatching it the
`if (nextEvent && event.timestamp)` guard takes the `onReplayComplete`
branch: only 1 of the 2 stored events is dispatched, contradicting the
claim that the run completes exactly when no next event exists. -/
theorem C2_counterexample :
    (replayRun 1 0
        [some { eventType := "click", timestamp := 0 },
         some { eventType := "click", timestamp := 100 }]).dispatched.length = 1 ∧
    (1 : Nat) ≠ 2 := by
  constructor
  · rfl
  · decide

/-- C2 (amended): for a loaded session with no null entries whose events
all have a nonzero timestamp except possibly the last, the replayNext
chain dispatches every stored event in stored order, schedules each
successor after `max(0, (next.timestamp - cur.timestamp) / speed)`, and
completes with `currentIndex` at `events.length` (the run reaches
`onReplayComplete` exactly when no next event exists; a zero timestamp
on a non-final event or a null next entry also ends the run early, which
is the departure from the original claim). -/
theorem C2_replay_completeness (speed : ℚ) (evs : List ReplayEvent)
    (hts : ∀ e ∈ evs.dropLast, e.timestamp ≠ 0) :
    replayRun speed 0 (evs.map some)
      = { dispatched := evs, delays := pacingDelays speed evs,
          finalIndex := evs.length } := by
  have h := replayRun_all_some speed evs hts 0
  rw [h]
  simp

theorem C2_replay_completeness_witness :
    replayRun 1 0
        [some { eventType := "click", timestamp := 3 },
         some { eventType := "input", timestamp := 10 }]
      = { dispatched := [{ eventType := "click", timestamp := 3 },
                         { eventType := "input", timestamp := 10 }],
          delays := pacingDelays 1 [{ eventType := "click", timestamp := 3 },
                                    { eventType := "input", timestamp := 10 }],
          finalIndex := 2 } := by
  have h := C2_replay_completeness 1
    [{ eventType := "click", timestamp := 3 }, { eventType := "input", timestamp := 10 }]
    (by decide)
  simpa using h

/-- C6: loadSession with null data, an unparsable string, or a payload
without an `events` array returns failure and leaves the replayer state
untouched (it stays as it was, in particular Idle when it was Idle); on
success the events are stored and `currentIndex` is reset to 0. -/
theorem C6_loadSession (st : ReplayState) (input : LoadInput) :
    ((loadSession st input).1 = false → (loadSession st input).2 = st) ∧
    (∀ d evs, (input = .strInput (some d) ∨ input = .objInput d) →
      d.events = some evs →
      (loadSession st input).1 = true ∧
      (loadSession st input).2.events = evs ∧
      (loadSession st input).2.currentIndex = 0 ∧
      (loadSession st input).2.sessionData = some d) := by
  constructor
  · intro hfail
    cases input with
    | nullInput => rfl
    | strInput od =>
      cases od with
      | none => rfl
      | some d =>
        cases hd : d.events with
        | none => simp [loadSession, loadParsed, hd]
        | some evs => simp [loadSession, loadParsed, hd] at hfail
    | objInput d =>
      cases hd : d.events with
      | none => simp [loadSession, loadParsed, hd]
      | some evs => simp [loadSession, loadParsed, hd] at hfail
  · intro d evs hin hevs
    rcases hin with rfl | rfl <;>
      simp [loadSession, loadParsed, hevs]

theorem C6_loadSession_witness :
    (loadSession (replayerInit 1) LoadInput.nullInput).2 = replayerInit 1 ∧
    (loadSession (replayerInit 1)
        (.objInput { sessionId := "s", startTime := 0, endTime := none,
                     events := some [some { eventType := "click", timestamp := 1 }] })).2.currentIndex
      = 0 := by
  constructor
  · exact (C6_loadSession (replayerInit 1) LoadInput.nullInput).1 rfl
  · exact ((C6_loadSession (replayerInit 1)
      (.objInput { sessionId := "s", startTime := 0, endTime := none,
                   events := some [some { eventType := "click", timestamp := 1 }] })).2
      { sessionId := "s", startTime := 0, endTime := none,
        events := some [some { eventType := "click", timestamp := 1 }] }
      [some { eventType := "click", timestamp := 1 }]
      (Or.inr rfl) rfl).2.2.1

/-- A loaded 10-event session used to exercise the jump operations. -/
def stTen : ReplayState :=
  { sessionData := none
    events := List.replicate 10 (some { eventType := "click", timestamp := 1 })
    isReplaying := false
    isPaused := false
    currentIndex := 0
    replaySpeed := 1 }

/-- C7 (counterexample): the claim says an out-of-range target is clamped
into [0, length), so jumping to 12 on a 10-event session would set
`currentIndex = 9`; the source instead ignores the request entirely and
`currentIndex` stays 0. -/
theorem C7_counterexample :
    (jumpToEvent stTen 12).currentIndex = 0 ∧ (0 : Nat) ≠ 9 := by
  constructor
  · rfl
  · decide

/-- C7 (amended): jumpToEvent stores an in-range index (and jumpToProgress
the floor of percent/100 times the length) without touching the playback
flags, but an out-of-range request is silently ignored — the state is
returned unchanged, with no clamping; jumpToProgress(50) on a 10-event
session still sets `currentIndex = 5`. -/
theorem C7_jump (st : ReplayState) (index : ℤ) :
    (0 ≤ index → index < (st.events.length : ℤ) →
      (jumpToEvent st index).currentIndex = index.toNat ∧
      (jumpToEvent st index).isReplaying = st.isReplaying ∧
      (jumpToEvent st index).isPaused = st.isPaused ∧
      (jumpToEvent st index).events = st.events) ∧
    (¬(0 ≤ index ∧ index < (st.events.length : ℤ)) → jumpToEvent st index = st) ∧
    (∀ percentage : ℚ,
      (jumpToProgress st percentage).isReplaying = st.isReplaying ∧
      (jumpToProgress st percentage).isPaused = st.isPaused) ∧
    (jumpToProgress stTen 50).currentIndex = 5 := by
  refine ⟨?_, ?_, ?_, ?_⟩
  · intro h0 hlt
    simp [jumpToEvent, h0, hlt]
  · intro hout
    simp [jumpToEvent, hout]
  · intro percentage
    rw [jumpToProgress, jumpToEvent]
    by_cases hc : 0 ≤ ⌊percentage / 100 * (st.events.length : ℚ)⌋ ∧
        ⌊percentage / 100 * (st.events.length : ℚ)⌋ < (st.events.length : ℤ)
    · simp [hc]
    · simp [hc]
  · have hlen : (stTen.events.length : ℚ) = 10 := by
      norm_num [stTen]
    have hfl : ⌊(50 : ℚ) / 100 * (stTen.events.length : ℚ)⌋ = 5 := by
      rw [hlen]
      norm_num
    rw [jumpToProgress, hfl, jumpToEvent]
    norm_num [stTen]
    rfl

theorem C7_jump_witness :
    (jumpToEvent stTen 3).currentIndex = (3 : ℤ).toNat ∧
    (jumpToProgress stTen 50).currentIndex = 5 := by
  have h := C7_jump stTen 3
  exact ⟨(h.1 (by norm_num) (by norm_num [stTen])).1, h.2.2.2⟩

/-- C10: startReplay always restarts the run from index 0 — any
`currentIndex` previously set through jumpToEvent or jumpToProgress while
not replaying is discarded (the whole call is insensitive to the stored
`currentIndex`), and after stopReplay the loaded events are retained, so
replay can be restarted without reloading and produces the same run. -/
theorem C10_startReplay_resets (st : ReplayState) (speed : Option ℚ)
    (hrep : st.isReplaying = false) (hne : st.events ≠ []) :
    (startReplay st speed).2 = some (replayRun (speed.getD st.replaySpeed) 0 st.events) ∧
    (∀ index : ℤ, startReplay (jumpToEvent st index) speed = startReplay st speed) ∧
    (∀ percentage : ℚ,
      startReplay (jumpToProgress st percentage) speed = startReplay st speed) ∧
    (stopReplay st).events = st.events ∧
    (startReplay (stopReplay st) speed).2 = (startReplay st speed).2 := by
  have hlen : ¬ st.events.length = 0 := by
    simpa [List.length_eq_zero] using hne
  have hidx : ∀ i : Nat, startReplay { st with currentIndex := i } speed
      = startReplay st speed := by
    intro i
    simp [startReplay, hrep, hlen]
  refine ⟨?_, ?_, ?_, rfl, ?_⟩
  · simp [startReplay, hrep, hlen]
  · intro index
    rw [jumpToEvent]
    by_cases hc : 0 ≤ index ∧ index < (st.events.length : ℤ)
    · rw [if_pos hc]
      exact hidx _
    · rw [if_neg hc]
  · intro percentage
    rw [jumpToProgress, jumpToEvent]
    by_cases hc : 0 ≤ ⌊percentage / 100 * (st.events.length : ℚ)⌋ ∧
        ⌊percentage / 100 * (st.events.length : ℚ)⌋ < (st.events.length : ℤ)
    · rw [if_pos hc]
      exact hidx _
    · rw [if_neg hc]
  · rw [stopReplay]
    simp [startReplay, hrep, hlen]

/-- A loaded one-event replayer with a stale cursor position, used to
instantiate the restart theorem. -/
def stOne : ReplayState :=
  { sessionData := none
    events := [some { eventType := "click", timestamp := 5 }]
    isReplaying := false
    isPaused := false
    currentIndex := 7
    replaySpeed := 1 }

theorem C10_startReplay_resets_witness :
    (startReplay stOne none).2
      = some (replayRun ((none : Option ℚ).getD stOne.replaySpeed) 0 stOne.events) ∧
    (startReplay (stopReplay stOne) none).2 = (startReplay stOne none).2 := by
  have h := C10_startReplay_resets stOne none rfl (by decide)
  exact ⟨h.1, h.2.2.2.2⟩

/-! ## SessionRecorder lifecycle

Embedding of the `SessionRecorder` start/stop lifecycle (src/record.js).
`docListeners` holds the keys of `this.listeners` — the capture handlers
registered on `document` by `addListener`, which `stopRecording` removes.
`urlPollIntervals` counts the live `setInterval` timers created by
`recordNavigationEvents` (record.js lines 435-446): the interval id is
never kept and `clearInterval` is never called anywhere in the file, so
the count can only grow. -/

structure RecRecord where
  eventType : String
  timestamp : Nat
deriving DecidableEq

structure RecorderState where
  isRecording : Bool
  startTime : Option Nat
  records : List RecRecord
  docListeners : List String
  urlPollIntervals : Nat
deriving DecidableEq

/-- The event types registered on `document` by startRecording with the
default options (record.js lines 104-459). -/
def recorderListenerTypes : List String :=
  ["click", "dblclick", "contextmenu", "mousedown", "mouseup", "mousemove",
   "keydown", "keyup", "scroll", "wheel", "resize", "input", "submit",
   "focus", "blur", "load", "beforeunload"]

def recorderInit : RecorderState :=
  { isRecording := false
    startTime := none
    records := []
    docListeners := []
    urlPollIntervals := 0 }

/-- SessionRecorder.startRecording (record.js lines 498-534): a no-op
while already recording; otherwise resets the session and registers the
capture listeners, and recordNavigationEvents starts one more URL-polling
interval. -/
def startRecording (st : RecorderState) (now : Nat) : RecorderState :=
  if st.isRecording then st
  else
    { isRecording := true
      startTime := some now
      records := []
      docListeners := recorderListenerTypes
      urlPollIntervals := st.urlPollIntervals + 1 }

/-- SessionRecorder.stopRecording (record.js lines 537-558): clears the
document listeners and returns the records. No `clearInterval` call
exists, so `urlPollIntervals` is untouched. -/
def stopRecording (st : RecorderState) : List RecRecord × RecorderState :=
  if st.isRecording = false then ([], st)
  else (st.records, { st with isRecording := false, docListeners := [] })

/-- SessionRecorder.recordEvent (record.js lines 58-91), reduced to the
fields the lifecycle claims need. -/
def recordEvent (st : RecorderState) (eventType : String) (now : Nat) : RecorderState :=
  if st.isRecording = false then st
  else
    match st.startTime with
    | some t0 =>
      { st with records := st.records ++ [{ eventType := eventType, timestamp := now - t0 }] }
    | none => st

/-- One firing of the URL-polling interval callback (record.js lines
437-446): when the URL changed it calls recordEvent with a `url-change`
event; the callback itself keeps firing whether or not recording is
active, because the interval is never cleared. -/
def urlPollTick (st : RecorderState) (urlChanged : Bool) (now : Nat) : RecorderState :=
  if urlChanged then recordEvent st "url-change" now else st

/-- C8 (code violates the claim): after startRecording and stopRecording
the URL-polling interval started by recordNavigationEvents is still
alive — stopRecording only removes the document listeners — and a
restart stacks a second interval instead of starting from a clean state;
the surviving timers keep firing and, once recording is active again,
their callbacks append records. -/
theorem C8_leaked_interval :
    ((stopRecording (startRecording recorderInit 0)).2.urlPollIntervals = 1 ∧
      (1 : Nat) ≠ 0) ∧
    (stopRecording (startRecording recorderInit 0)).2.docListeners = [] ∧
    (startRecording (stopRecording (startRecording recorderInit 0)).2 10).urlPollIntervals
      = 2 ∧
    (urlPollTick
        (startRecording (stopRecording (startRecording recorderInit 0)).2 10)
        true 2000).records
      = [{ eventType := "url-change", timestamp := 1990 }] := by
  refine ⟨⟨rfl, by decide⟩, rfl, rfl, rfl⟩

/-! ## SelectorResolver

Embedding of `SessionRecorder.getElementSelector` (src/record.js lines
462-495). A DOM position is either JS `null`, the document root
(`document.documentElement`), or an element together with its
`parentElement` chain. `jsSplitSpace` and `joinSep` are structurally
recursive renderings of JS `split(' ')` and `join('.')`. -/

def splitOnChar (sep : Char) : List Char → List (List Char)
  | [] => [[]]
  | c :: rest =>
    if c == sep then [] :: splitOnChar sep rest
    else
      match splitOnChar sep rest with
      | [] => [[c]]
      | h :: t => (c :: h) :: t

/-- JS `s.split(' ')`. -/
def jsSplitSpace (s : String) : List String :=
  (splitOnChar ' ' s.toList).map String.mk

/-- JS `parts.join(sep)`. -/
def joinSep (sep : String) : List String → String
  | [] => ""
  | [x] => x
  | x :: xs => x ++ sep ++ joinSep sep xs

structure DomElem where
  tagName : String
  id : String
  className : String
deriving DecidableEq

inductive DomNode where
  | nullNode : DomNode
  | root : DomNode
  | node : DomElem → DomNode → DomNode
deriving DecidableEq

/-- The element's own part of the selector (record.js lines 467-475):
tag name, then `#id` when the id is truthy, else `.`-joined non-empty
class tokens when className is truthy. -/
def baseSelector (e : DomElem) : String :=
  let selector := jsToLower e.tagName
  if e.id ≠ "" then selector ++ "#" ++ e.id
  else if e.className ≠ "" then
    selector ++ "." ++ joinSep "." ((jsSplitSpace e.className).filter (fun c => c ≠ ""))
  else selector

/-- The class-token qualifier an ancestor contributes (record.js lines
484-489): when the ancestor's className is truthy and it has at least
one non-empty class token, the first two tokens are prepended with a
child combinator; otherwise the selector is left as is. -/
def ancestorQualified (pe : DomElem) (selector : String) : String :=
  if pe.className ≠ "" then
    if (((jsSplitSpace pe.className).filter (fun c => c ≠ "")).take 2).length > 0 then
      jsToLower pe.tagName ++ "." ++
        joinSep "." (((jsSplitSpace pe.className).filter (fun c => c ≠ "")).take 2) ++
        " > " ++ selector
    else selector
  else selector

/-- The ancestor walk (record.js lines 478-492): while the parent exists,
is not the document root, and fewer than 3 levels were climbed, an
id-qualified ancestor is prepended and the walk stops; otherwise the
class qualifier is prepended and the walk continues one level up. -/
def ascendSelector : DomNode → Nat → String → String
  | .nullNode, _, selector => selector
  | .root, _, selector => selector
  | .node pe pp, depth, selector =>
    if depth < 3 then
      if pe.id ≠ "" then
        jsToLower pe.tagName ++ "#" ++ pe.id ++ " > " ++ selector
      else
        ascendSelector pp (depth + 1) (ancestorQualified pe selector)
    else selector

/-- SessionRecorder.getElementSelector (record.js lines 462-495). -/
def getElementSelector : DomNode → String
  | .nullNode => "html"
  | .root => "html"
  | .node e p => ascendSelector p 0 (baseSelector e)

/-- Truncation of a parent chain after `n` levels; used to state that the
resolver consults at most 3 ancestor levels. -/
def chainTake : Nat → DomNode → DomNode
  | _, .nullNode => .nullNode
  | _, .root => .root
  | 0, .node _ _ => .nullNode
  | n + 1, .node pe pp => .node pe (chainTake n pp)

theorem ancestorQualified_append (pe : DomElem) (selector : String) :
    ∃ q, ancestorQualified pe selector = q ++ selector := by
  rw [ancestorQualified]
  by_cases hcn : pe.className ≠ ""
  · rw [if_pos hcn]
    by_cases hlen : (((jsSplitSpace pe.className).filter (fun c => c ≠ "")).take 2).length > 0
    · rw [if_pos hlen]
      refine ⟨jsToLower pe.tagName ++ "." ++
        joinSep "." (((jsSplitSpace pe.className).filter (fun c => c ≠ "")).take 2) ++
        " > ", ?_⟩
      simp [String.append_assoc]
    · rw [if_neg hlen]
      exact ⟨"", rfl⟩
  · rw [if_neg hcn]
    exact ⟨"", rfl⟩

theorem ascendSelector_append (p : DomNode) :
    ∀ (depth : Nat) (selector : String),
      ∃ pre, ascendSelector p depth selector = pre ++ selector := by
  induction p with
  | nullNode => exact fun d s => ⟨"", rfl⟩
  | root => exact fun d s => ⟨"", rfl⟩
  | node pe pp ih =>
    intro d sel
    by_cases hd : d < 3
    · by_cases hid : pe.id ≠ ""
      · refine ⟨jsToLower pe.tagName ++ "#" ++ pe.id ++ " > ", ?_⟩
        rw [ascendSelector, if_pos hd, if_pos hid]
      · obtain ⟨q, hq⟩ := ancestorQualified_append pe sel
        obtain ⟨pre2, hpre2⟩ := ih (d + 1) (ancestorQualified pe sel)
        refine ⟨pre2 ++ q, ?_⟩
        rw [ascendSelector, if_pos hd, if_neg hid, hpre2, hq, String.append_assoc]
    · refine ⟨"", ?_⟩
      rw [ascendSelector, if_neg hd]
      rfl

theorem ascendSelector_take (p : DomNode) :
    ∀ (depth : Nat) (selector : String),
      ascendSelector p depth selector
        = ascendSelector (chainTake (3 - depth) p) depth selector := by
  induction p with
  | nullNode => intro d s; cases h : 3 - d <;> rfl
  | root => intro d s; cases h : 3 - d <;> rfl
  | node pe pp ih =>
    intro d sel
    by_cases hd : d < 3
    · have h3 : 3 - d = (3 - (d + 1)) + 1 := by omega
      rw [h3]
      by_cases hid : pe.id ≠ ""
      · rw [ascendSelector, if_pos hd, if_pos hid,
            chainTake, ascendSelector, if_pos hd, if_pos hid]
      · rw [ascendSelector, if_pos hd, if_neg hid,
            chainTake, ascendSelector, if_pos hd, if_neg hid]
        exact ih (d + 1) (ancestorQualified pe sel)
    · have h3 : 3 - d = 0 := by omega
      rw [h3, ascendSelector, if_neg hd, chainTake, ascendSelector]

/-- An element with a stable id whose parent carries only a class. -/
def elFoo : DomElem := { tagName := "DIV", id := "foo", className := "" }

/-- A class-qualified, id-less parent element. -/
def parBar : DomElem := { tagName := "DIV", id := "", className := "bar" }

/-- An id-qualified parent element. -/
def parApp : DomElem := { tagName := "DIV", id := "app", className := "" }

/-- C5 (counterexample): the claim says that when the element itself has
an id the resolver appends it and stops ascending, which would give
`"div#foo"`; the source's ancestor loop runs regardless of the element's
own id, so the class-qualified parent is still prepended. -/
theorem C5_counterexample :
    getElementSelector (.node elFoo (.node parBar .root)) = "div.bar > div#foo" ∧
    ("div.bar > div#foo" : String) ≠ "div#foo" := by
  constructor
  · decide
  · decide

/-- C5 (amended): the resolver is a deterministic function of the element
and its parent chain that resolves null input and the document root to
the sentinel "html"; it builds the element's own part from the tag name
plus id (or else normalized class tokens) and always keeps that part as
the suffix of the result; the ancestor walk runs even when the element
itself has an id — that is the departure from the claim — consults at
most 3 ancestor levels, and an id-qualified ancestor short-circuits any
deeper ancestry. -/
theorem C5_resolver :
    getElementSelector .nullNode = "html" ∧
    getElementSelector .root = "html" ∧
    (∀ (e : DomElem) (p : DomNode),
      ∃ pre, getElementSelector (.node e p) = pre ++ baseSelector e) ∧
    (∀ (e pe : DomElem) (pp pp2 : DomNode), pe.id ≠ "" →
      getElementSelector (.node e (.node pe pp))
        = getElementSelector (.node e (.node pe pp2))) ∧
    (∀ (e : DomElem) (p : DomNode),
      getElementSelector (.node e p) = getElementSelector (.node e (chainTake 3 p))) := by
  refine ⟨rfl, rfl, ?_, ?_, ?_⟩
  · intro e p
    exact ascendSelector_append p 0 (baseSelector e)
  · intro e pe pp pp2 hid
    rw [getElementSelector, getElementSelector,
        ascendSelector, if_pos (by omega), if_pos hid,
        ascendSelector, if_pos (by omega), if_pos hid]
  · intro e p
    rw [getElementSelector, getElementSelector]
    exact ascendSelector_take p 0 (baseSelector e)

theorem C5_resolver_witness :
    getElementSelector (.node elFoo (.node parApp .root))
      = getElementSelector (.node elFoo (.node parApp .nullNode)) :=
  C5_resolver.2.2.2.1 elFoo parApp .root .nullNode (by decide)
